import Mathlib

/-!
Verification of the vector-utility, query-builder and pool-client core of
node-red-contrib-postgres-pgvector.  The JavaScript sources
(src/lib/vector-utils.js, src/lib/client.js, src/nodes/pgvector-config.js)
are shallowly embedded: JavaScript numbers are modelled as exact rationals
extended with NaN and the two infinities (binary64 rounding is idealised
away; none of the verified properties depends on rounding), strings as
Lean strings, fallible code as Except, and the asynchronous pool client as
explicit traces of acquire/release events.
-/

set_option maxRecDepth 8000

attribute [local semireducible] Rat.mul Rat.inv Rat.add Rat.sub Rat.ofScientific

namespace Pgvector

/-- Model of a JavaScript number: an exact rational, NaN, or ±Infinity. -/
inductive JsNum where
  | finite (q : ℚ)
  | nan
  | inf
  | neginf
deriving DecidableEq

/-- Number.isFinite. -/
def JsNum.isFinite : JsNum → Bool
  | .finite _ => true
  | _ => false

/-- JavaScript falsiness of a number: 0 (and -0, identical in ℚ) and NaN are falsy. -/
def JsNum.isFalsy : JsNum → Bool
  | .finite q => q = 0
  | .nan => true
  | _ => false

/-- The JavaScript expression x || d restricted to numbers. -/
def jsOr (x d : JsNum) : JsNum := if x.isFalsy then d else x

/-- Math.min on two arguments: NaN-propagating minimum. -/
def jsMin : JsNum → JsNum → JsNum
  | .nan, _ => .nan
  | _, .nan => .nan
  | .neginf, _ => .neginf
  | _, .neginf => .neginf
  | .inf, y => y
  | x, .inf => x
  | .finite a, .finite b => .finite (min a b)

/-- Math.max on two arguments: NaN-propagating maximum. -/
def jsMax : JsNum → JsNum → JsNum
  | .nan, _ => .nan
  | _, .nan => .nan
  | .inf, _ => .inf
  | _, .inf => .inf
  | .neginf, y => y
  | x, .neginf => x
  | .finite a, .finite b => .finite (max a b)

/-- The JavaScript < comparison on numbers; any comparison with NaN is false. -/
def JsNum.ltB : JsNum → JsNum → Bool
  | .nan, _ => false
  | _, .nan => false
  | .neginf, .neginf => false
  | .neginf, _ => true
  | _, .neginf => false
  | .inf, _ => false
  | _, .inf => true
  | .finite a, .finite b => a < b

/-- The JavaScript > comparison on numbers. -/
def JsNum.gtB (a b : JsNum) : Bool := JsNum.ltB b a

/-- JavaScript whitespace characters relevant to String.prototype.trim
(the ASCII subset; the source never receives the exotic Unicode spaces). -/
def isWsCh (c : Char) : Bool :=
  c = ' ' || c = '\t' || c = '\n' || c = '\r' || c = '\x0b' || c = '\x0c'

/-- String.prototype.trim on a character list. -/
def chTrim (cs : List Char) : List Char :=
  ((cs.dropWhile isWsCh).reverse.dropWhile isWsCh).reverse

/-- Value of a list of decimal digit characters. -/
def digitsVal (cs : List Char) : Nat :=
  cs.foldl (fun a c => a * 10 + (c.toNat - 48)) 0

/-- Renders a rational with terminating decimal expansion the way JavaScript
prints the corresponding number (every binary64 value has a terminating
decimal expansion; the num/den fallback is outside that image). -/
def ratToString (q : ℚ) : String :=
  if q.den = 1 then Int.repr q.num
  else
    match (List.range 1201).find? (fun k => (q * (10 : ℚ) ^ k).den = 1) with
    | some k =>
      let n : Nat := (|q| * (10 : ℚ) ^ k).num.toNat
      let ds := (Nat.repr n).data
      let ds := List.replicate (k + 1 - ds.length) '0' ++ ds
      (if q < 0 then "-" else "") ++ String.mk (ds.take (ds.length - k)) ++ "." ++
        String.mk (ds.drop (ds.length - k))
    | none => Int.repr q.num ++ "/" ++ Nat.repr q.den

/-- JavaScript number-to-string conversion. -/
def JsNum.toStr : JsNum → String
  | .finite q => ratToString q
  | .nan => "NaN"
  | .inf => "Infinity"
  | .neginf => "-Infinity"

/-- Exponent part of a StrDecimalLiteral; the whole remaining input must be
an (optionally signed) exponent, or empty. -/
def parseExpPart : List Char → Option Int
  | [] => some 0
  | c :: rest =>
    if c = 'e' || c = 'E' then
      match rest with
      | '+' :: ds => if ds ≠ [] && ds.all Char.isDigit then some (digitsVal ds) else none
      | '-' :: ds => if ds ≠ [] && ds.all Char.isDigit then some (-(digitsVal ds : Int)) else none
      | ds => if ds ≠ [] && ds.all Char.isDigit then some (digitsVal ds) else none
    else none

/-- Unsigned decimal body of a StrDecimalLiteral: digits, an optional
fraction, an optional exponent; the whole input must match. -/
def parseDecBody (cs : List Char) : Option ℚ :=
  let p := cs.span Char.isDigit
  let q2 : List Char × List Char :=
    match p.2 with
    | '.' :: r => r.span Char.isDigit
    | _ => ([], p.2)
  let rest := if p.2.head? = some '.' then q2.2 else p.2
  if p.1 = [] && q2.1 = [] then none
  else
    match parseExpPart rest with
    | some e =>
      some ((digitsVal p.1 + (digitsVal q2.1 : ℚ) / (10 : ℚ) ^ q2.1.length) * (10 : ℚ) ^ e)
    | none => none

/-- Digit value in a given radix (hex letters allowed), as used by the
0x/0o/0b numeric string forms. -/
def radixDigitVal (c : Char) : Option Nat :=
  if c.isDigit then some (c.toNat - 48)
  else if 'a' ≤ c && c ≤ 'f' then some (c.toNat - 97 + 10)
  else if 'A' ≤ c && c ≤ 'F' then some (c.toNat - 65 + 10)
  else none

/-- Value of 0x/0o/0b digits, or NaN when a digit is invalid for the radix. -/
def parseRadixDigits (radix : Nat) (cs : List Char) : JsNum :=
  if cs = [] then .nan
  else
    let step := fun (acc : Option Nat) (c : Char) =>
      match acc, radixDigitVal c with
      | some a, some d => if d < radix then some (a * radix + d) else none
      | _, _ => none
    match cs.foldl step (some 0) with
    | some n => .finite n
    | none => .nan

/-- ToNumber on an already trimmed character list (the string branch of the
JavaScript ToNumber conversion). -/
def strToNumCore (cs : List Char) : JsNum :=
  if cs = [] then .finite 0
  else if cs = "Infinity".data || cs = "+Infinity".data then .inf
  else if cs = "-Infinity".data then .neginf
  else
    match cs with
    | '0' :: c :: rest =>
      if c = 'x' || c = 'X' then parseRadixDigits 16 rest
      else if c = 'o' || c = 'O' then parseRadixDigits 8 rest
      else if c = 'b' || c = 'B' then parseRadixDigits 2 rest
      else
        match parseDecBody cs with
        | some q => .finite q
        | none => .nan
    | '+' :: rest =>
      match parseDecBody rest with
      | some q => .finite q
      | none => .nan
    | '-' :: rest =>
      match parseDecBody rest with
      | some q => .finite (-q)
      | none => .nan
    | _ =>
      match parseDecBody cs with
      | some q => .finite q
      | none => .nan

/-- ToNumber on a string: trim, then parse. -/
def strToNum (s : String) : JsNum := strToNumCore (chTrim s.data)

/-- Model of a JavaScript value as it can appear inside a vector input:
a JSON-decodable value, an already-numeric element, or undefined. -/
inductive JVal where
  | undef
  | null
  | bool (b : Bool)
  | num (n : JsNum)
  | str (s : String)
  | arr (xs : List JVal)
  | obj (fields : List (String × JVal))

mutual

/-- Boolean structural equality on JVal (deriving DecidableEq is not
available for this nested inductive). -/
def jvalBeq : JVal → JVal → Bool
  | .undef, .undef => true
  | .null, .null => true
  | .bool a, .bool b => a = b
  | .num a, .num b => a = b
  | .str a, .str b => a = b
  | .arr xs, .arr ys => jvalListBeq xs ys
  | .obj fs, .obj gs => jvalFieldsBeq fs gs
  | _, _ => false

/-- Boolean equality on JVal lists. -/
def jvalListBeq : List JVal → List JVal → Bool
  | [], [] => true
  | x :: xs, y :: ys => jvalBeq x y && jvalListBeq xs ys
  | _, _ => false

/-- Boolean equality on JVal field lists. -/
def jvalFieldsBeq : List (String × JVal) → List (String × JVal) → Bool
  | [], [] => true
  | (k, v) :: fs, (l, w) :: gs => k = l && jvalBeq v w && jvalFieldsBeq fs gs
  | _, _ => false

end

mutual

/-- String conversion of one array element inside Array.prototype.join:
null and undefined become the empty string. -/
def jvalElemString : JVal → String
  | .undef => ""
  | .null => ""
  | .bool true => "true"
  | .bool false => "false"
  | .num n => n.toStr
  | .str s => s
  | .arr xs => jvalJoin xs
  | .obj _ => "[object Object]"

/-- Array.prototype.toString, i.e. join with a comma separator. -/
def jvalJoin : List JVal → String
  | [] => ""
  | [x] => jvalElemString x
  | x :: y :: xs => jvalElemString x ++ "," ++ jvalJoin (y :: xs)

end

/-- The JavaScript Number() conversion on a value. -/
def jsToNum : JVal → JsNum
  | .undef => .nan
  | .null => .finite 0
  | .bool true => .finite 1
  | .bool false => .finite 0
  | .num n => n
  | .str s => strToNum s
  | .arr xs => strToNumCore (chTrim (jvalJoin xs).data)
  | .obj _ => .nan

/-! JSON.parse, restricted to what parseVector needs: a strict parser for
the JSON grammar producing a JVal.  Numbers are read exactly into ℚ
(binary64 rounding idealised away); lone surrogate escape sequences, which
Lean chars cannot represent, decode to the null character. -/

/-- JSON insignificant whitespace. -/
def jsonSkipWs (cs : List Char) : List Char :=
  cs.dropWhile (fun c => c = ' ' || c = '\t' || c = '\n' || c = '\r')

/-- Hex digit value for \u escapes. -/
def hexDigitVal (c : Char) : Option Nat := radixDigitVal c

/-- Body of a JSON string literal after the opening quote; returns the
decoded content and the input after the closing quote. -/
def jsonStrBody : List Char → Option (List Char × List Char)
  | [] => none
  | c :: rest =>
    if c = '"' then some ([], rest)
    else if c = '\\' then
      match rest with
      | 'u' :: h1 :: h2 :: h3 :: h4 :: rest3 =>
        match hexDigitVal h1, hexDigitVal h2, hexDigitVal h3, hexDigitVal h4 with
        | some a, some b, some c2, some d =>
          (jsonStrBody rest3).map (fun p =>
            (Char.ofNat (((a * 16 + b) * 16 + c2) * 16 + d) :: p.1, p.2))
        | _, _, _, _ => none
      | e :: rest2 =>
        let esc : Option Char :=
          if e = '"' then some '"'
          else if e = '\\' then some '\\'
          else if e = '/' then some '/'
          else if e = 'b' then some '\x08'
          else if e = 'f' then some '\x0c'
          else if e = 'n' then some '\n'
          else if e = 'r' then some '\r'
          else if e = 't' then some '\t'
          else none
        match esc with
        | some ch => (jsonStrBody rest2).map (fun p => (ch :: p.1, p.2))
        | none => none
      | [] => none
    else if c.toNat < 32 then none
    else (jsonStrBody rest).map (fun p => (c :: p.1, p.2))

/-- JSON number literal: -? int frac? exp?, with the JSON leading-zero
restriction; returns the exact value and the rest of the input. -/
def jsonNumLit (cs : List Char) : Option (ℚ × List Char) :=
  let sgn : Bool × List Char :=
    match cs with
    | '-' :: r => (true, r)
    | r => (false, r)
  let ip : Option (Nat × List Char) :=
    match sgn.2 with
    | '0' :: r => some (0, r)
    | r =>
      let p := r.span Char.isDigit
      if p.1 = [] then none else some (digitsVal p.1, p.2)
  match ip with
  | none => none
  | some (i, r1) =>
    let fr : Option (ℚ × List Char) :=
      match r1 with
      | '.' :: r2 =>
        let p := r2.span Char.isDigit
        if p.1 = [] then none
        else some ((digitsVal p.1 : ℚ) / (10 : ℚ) ^ p.1.length, p.2)
      | _ => some (0, r1)
    match fr with
    | none => none
    | some (f, r2) =>
      let ex : Option (Int × List Char) :=
        match r2 with
        | c :: r3 =>
          if c = 'e' || c = 'E' then
            match r3 with
            | '+' :: r4 =>
              let p := r4.span Char.isDigit
              if p.1 = [] then none else some ((digitsVal p.1 : Int), p.2)
            | '-' :: r4 =>
              let p := r4.span Char.isDigit
              if p.1 = [] then none else some (-(digitsVal p.1 : Int), p.2)
            | r4 =>
              let p := r4.span Char.isDigit
              if p.1 = [] then none else some ((digitsVal p.1 : Int), p.2)
          else some (0, r2)
        | [] => some (0, [])
      match ex with
      | none => none
      | some (e, r3) =>
        let mag : ℚ := ((i : ℚ) + f) * (10 : ℚ) ^ e
        some (if sgn.1 then -mag else mag, r3)

/-- One parsing pass over the elements of a JSON array, parameterised by
the value parser (breaking the mutual recursion through the fuel). -/
def jsonListAux (pv : List Char → Option (JVal × List Char)) :
    Nat → List Char → Option (List JVal × List Char)
  | 0, _ => none
  | fuel + 1, cs =>
    match pv cs with
    | none => none
    | some (v, r1) =>
      match jsonSkipWs r1 with
      | ',' :: r2 =>
        match jsonListAux pv fuel r2 with
        | some (vs, r3) => some (v :: vs, r3)
        | none => none
      | ']' :: r2 => some ([v], r2)
      | _ => none

/-- One parsing pass over the members of a JSON object, parameterised by
the value parser. -/
def jsonObjAux (pv : List Char → Option (JVal × List Char)) :
    Nat → List Char → Option (List (String × JVal) × List Char)
  | 0, _ => none
  | fuel + 1, cs =>
    match jsonSkipWs cs with
    | '"' :: r0 =>
      match jsonStrBody r0 with
      | none => none
      | some (key, r1) =>
        match jsonSkipWs r1 with
        | ':' :: r2 =>
          match pv r2 with
          | none => none
          | some (v, r3) =>
            match jsonSkipWs r3 with
            | ',' :: r4 =>
              match jsonObjAux pv fuel r4 with
              | some (kvs, r5) => some ((String.mk key, v) :: kvs, r5)
              | none => none
            | '}' :: r4 => some ([(String.mk key, v)], r4)
            | _ => none
        | _ => none
    | _ => none

/-- JSON value parser with explicit fuel (one unit per nesting level and
per aggregate element, so input length + 1 always suffices). -/
def jsonParseVal : Nat → List Char → Option (JVal × List Char)
  | 0, _ => none
  | fuel + 1, cs =>
    match jsonSkipWs cs with
    | [] => none
    | c :: rest =>
      if c = 'n' then
        match rest with
        | 'u' :: 'l' :: 'l' :: r => some (.null, r)
        | _ => none
      else if c = 't' then
        match rest with
        | 'r' :: 'u' :: 'e' :: r => some (.bool true, r)
        | _ => none
      else if c = 'f' then
        match rest with
        | 'a' :: 'l' :: 's' :: 'e' :: r => some (.bool false, r)
        | _ => none
      else if c = '"' then
        (jsonStrBody rest).map (fun p => (.str (String.mk p.1), p.2))
      else if c = '[' then
        match jsonSkipWs rest with
        | ']' :: r2 => some (.arr [], r2)
        | _ => (jsonListAux (jsonParseVal fuel) fuel rest).map
            (fun p => (.arr p.1, p.2))
      else if c = '{' then
        match jsonSkipWs rest with
        | '}' :: r2 => some (.obj [], r2)
        | _ => (jsonObjAux (jsonParseVal fuel) fuel rest).map
            (fun p => (.obj p.1, p.2))
      else
        (jsonNumLit (c :: rest)).map (fun p => (.num (.finite p.1), p.2))

/-- JSON.parse on a character list: the whole input (up to surrounding
whitespace) must be one JSON value. -/
def jsonParse (cs : List Char) : Option JVal :=
  match jsonParseVal (cs.length + 1) cs with
  | some (v, rest) => if jsonSkipWs rest = [] then some v else none
  | none => none

/-! Node's Buffer.from(string, 'base64') and the Float32Array
reinterpretation used by the base64 branch of parseVector. -/

/-- Character class of the BASE64_REGEX /^[A-Za-z0-9+\/=]+$/. -/
def b64Char (c : Char) : Bool :=
  c.isAlpha || c.isDigit || c = '+' || c = '/' || c = '='

/-- Sextet value of one base64 alphabet character. -/
def b64CharVal (c : Char) : Option Nat :=
  if 'A' ≤ c && c ≤ 'Z' then some (c.toNat - 65)
  else if 'a' ≤ c && c ≤ 'z' then some (c.toNat - 97 + 26)
  else if c.isDigit then some (c.toNat - 48 + 52)
  else if c = '+' then some 62
  else if c = '/' then some 63
  else none

/-- Sextets of a base64 string; '=' terminates decoding, other
non-alphabet characters are skipped (Node's forgiving decoder). -/
def b64Sextets : List Char → List Nat
  | [] => []
  | c :: rest =>
    if c = '=' then []
    else
      match b64CharVal c with
      | some v => v :: b64Sextets rest
      | none => b64Sextets rest

/-- Packs sextets into bytes, dropping the trailing bits that do not fill
a byte (n sextets yield ⌊6n/8⌋ bytes). -/
def sextetsToBytes : List Nat → List Nat
  | a :: b :: c :: d :: rest =>
    (a * 4 + b / 16) :: ((b % 16) * 16 + c / 4) :: ((c % 4) * 64 + d) ::
      sextetsToBytes rest
  | [a, b, c] => [a * 4 + b / 16, (b % 16) * 16 + c / 4]
  | [a, b] => [a * 4 + b / 16]
  | _ => []

/-- Node's base64 decoding to a byte list. -/
def nodeB64Decode (cs : List Char) : List Nat := sextetsToBytes (b64Sextets cs)

/-- IEEE-754 binary32 value of a 32-bit word, into the idealised number
model (exact rationals for finite values). -/
def decodeF32 (w : Nat) : JsNum :=
  let sign : ℕ := w / 2 ^ 31 % 2
  let ex : ℕ := w / 2 ^ 23 % 256
  let frac : ℕ := w % 2 ^ 23
  if ex = 255 then
    if frac = 0 then (if sign = 1 then .neginf else .inf) else .nan
  else
    let mag : ℚ :=
      if ex = 0 then (frac : ℚ) / 2 ^ 149
      else ((2 ^ 23 + frac : ℕ) : ℚ) * 2 ^ ex / 2 ^ 150
    .finite (if sign = 1 then -mag else mag)

/-- Reads a byte list as a little-endian Float32Array. -/
def bytesToF32s : List Nat → List JsNum
  | b0 :: b1 :: b2 :: b3 :: rest =>
    decodeF32 (b0 + 256 * b1 + 65536 * b2 + 16777216 * b3) :: bytesToF32s rest
  | _ => []

/-! parseVector from src/lib/vector-utils.js. -/

/-- Input domain of parseVector: null/undefined, a JavaScript array, a
string, or any other value (which the final throw rejects). -/
inductive VIn where
  | nullish
  | arr (xs : List JVal)
  | str (s : String)
  | other

/-- The error message of the parseVector throw. -/
def vecFormatErr : String := "Unsupported vector format"

/-- String.prototype.split(',') on a character list. -/
def csvSplit : List Char → List (List Char)
  | [] => [[]]
  | c :: rest =>
    if c = ',' then [] :: csvSplit rest
    else
      match csvSplit rest with
      | g :: gs => (c :: g) :: gs
      | [] => [[c]]

/-- Whether the trimmed string starts with the JSON-array bracket. -/
def startsWithBracket : List Char → Bool
  | c :: _ => c = '['
  | [] => false

/-- The CSV and base64 branches of parseVector (the code after the JSON
attempt), on the trimmed character list. -/
def parseVectorFallback (tcs : List Char) : Except String (Option (List JsNum)) :=
  if tcs.contains ',' then
    .ok (some (((csvSplit tcs).map (fun t => strToNumCore (chTrim t))).filter
      JsNum.isFinite))
  else if tcs.all b64Char && tcs.length % 4 = 0 && 0 < tcs.length then
    let buf := nodeB64Decode tcs
    if buf.length % 4 = 0 then .ok (some (bytesToF32s buf))
    else .error vecFormatErr
  else .error vecFormatErr

/-- The string branch of parseVector, on the trimmed character list:
JSON-array attempt first, then fallback. -/
def parseVectorStr (tcs : List Char) : Except String (Option (List JsNum)) :=
  let jsonRes : Option (List JsNum) :=
    if startsWithBracket tcs then
      match jsonParse tcs with
      | some (.arr xs) => some (xs.map jsToNum)
      | _ => none
    else none
  match jsonRes with
  | some v => .ok (some v)
  | none => parseVectorFallback tcs

/-- parseVector: null propagates as null, arrays are element-wise
Number()-coerced, strings are tried as JSON array, then CSV, then base64,
and anything else is an UnsupportedFormat error. -/
def parseVector : VIn → Except String (Option (List JsNum))
  | .nullish => .ok none
  | .arr xs => .ok (some (xs.map jsToNum))
  | .str s => parseVectorStr (chTrim s.data)
  | .other => .error vecFormatErr

/-! escapeIdentifier and escapeSelectClause from src/lib/vector-utils.js. -/

/-- A \w word character of JavaScript regexes. -/
def isWordCh (c : Char) : Bool := c.isAlpha || c.isDigit || c = '_'

/-- The [\w.] character class used for unquoted identifiers. -/
def isIdentChar (c : Char) : Bool := isWordCh c || c = '.'

/-- Doubles every double quote in an identifier body. -/
def doubleQuotes : List Char → List Char
  | [] => []
  | c :: rest =>
    if c = '"' then '"' :: '"' :: doubleQuotes rest else c :: doubleQuotes rest

/-- Modelled from the spec: format.ident of the external pg-format
dependency (its source is not part of this repository).  Per the spec, a
name containing only word characters and dots is returned unchanged; any
other name is wrapped in double quotes with internal double quotes
doubled. -/
def formatIdent (s : String) : String :=
  if s.data ≠ [] && s.data.all isIdentChar then s
  else String.mk ('"' :: (doubleQuotes s.data ++ ['"']))

/-- The throw message of escapeIdentifier. -/
def invalidIdentMsg : String := "Invalid identifier: must be a non-empty string"

/-- escapeIdentifier: none models null/undefined/non-string input (all of
which fail the !identifier || typeof check identically), the empty string
is falsy and also fails; otherwise delegates to pg-format ident. -/
def escapeIdentifier : Option String → Except String String
  | none => .error invalidIdentMsg
  | some s => if s.data = [] then .error invalidIdentMsg else .ok (formatIdent s)

/-- Lexes the body of a standard SQL double-quoted identifier: a doubled
quote is a literal quote, a single quote ends the token.  Returns the
identifier content and the unconsumed input. -/
def lexQuoteBody : List Char → Option (List Char × List Char)
  | [] => none
  | [c] => if c = '"' then some ([], []) else none
  | c :: c2 :: rest =>
    if c = '"' then
      if c2 = '"' then (lexQuoteBody rest).map (fun p => ('"' :: p.1, p.2))
      else some ([], c2 :: rest)
    else (lexQuoteBody (c2 :: rest)).map (fun p => (c :: p.1, p.2))

/-- Lexes one double-quoted SQL identifier token from the front of a
string. -/
def lexQuotedIdent (s : String) : Option (String × String) :=
  match s.data with
  | '"' :: rest => (lexQuoteBody rest).map (fun p => (String.mk p.1, String.mk p.2))
  | _ => none

/-- Joins rendered pieces with a separator (Array.prototype.join). -/
def joinSep (sep : String) : List String → String
  | [] => ""
  | [x] => x
  | x :: y :: xs => x ++ sep ++ joinSep sep (y :: xs)

/-- The greedy match of /^(.*)\s+as\s+([\w.]+)$/i: alias is the maximal
trailing word/dot run, preceded by whitespace, the literal as, and more
whitespace; returns (expression, alias). -/
def matchAsAlias (t : List Char) : Option (List Char × List Char) :=
  let r := t.reverse
  let aliasR := r.takeWhile isIdentChar
  let r2 := r.drop aliasR.length
  let wsR := r2.takeWhile isWsCh
  let r3 := r2.drop wsR.length
  if aliasR = [] || wsR = [] then none
  else
    match r3 with
    | s1 :: a1 :: r4 =>
      if (s1 = 's' || s1 = 'S') && (a1 = 'a' || a1 = 'A') then
        let ws2 := r4.takeWhile isWsCh
        let r5 := r4.drop ws2.length
        if ws2 = [] then none else some (r5.reverse, aliasR.reverse)
      else none
    | _ => none

/-- One comma-separated part of a select clause: bare star passes, an
expr-AS-alias escapes only the alias, a simple word/dot token is escaped
as an identifier (escapeIdentifier cannot fail there since the token is
nonempty), anything else passes through untouched. -/
def escapeSelectPart (part : List Char) : String :=
  let t := chTrim part
  if t = ['*'] then "*"
  else
    match matchAsAlias t with
    | some (expr, al) =>
      String.mk (chTrim expr) ++ " AS " ++ formatIdent (String.mk (chTrim al))
    | none =>
      if t ≠ [] && t.all isIdentChar then formatIdent (String.mk t)
      else String.mk t

/-- escapeSelectClause: falsy or (trimmed) star input yields star,
otherwise each comma-separated part is handled and rejoined. -/
def escapeSelectClause (s : String) : String :=
  if s.data = [] || chTrim s.data = ['*'] then "*"
  else joinSep ", " ((csvSplit s.data).map escapeSelectPart)

/-! buildSimilarityQuery from src/lib/vector-utils.js. -/

/-- The pgvector operator for a metric name; unknown metrics fall back to
the cosine operator (own properties of the frozen METRIC_OPERATORS map). -/
def metricOp (m : String) : String :=
  if m = "cosine" then "<=>"
  else if m = "l2" then "<->"
  else if m = "inner-product" then "<#>"
  else if m = "ip" then "<#>"
  else "<=>"

/-- Modelled from the spec: toSql of the external pgvector dependency, the
store-specific literal encoding of a vector, e.g. [0.1,0.2,0.3]. -/
def vectorLiteral (v : List JsNum) : String :=
  "[" ++ joinSep "," (v.map JsNum.toStr) ++ "]"

/-- The limit sanitisation Math.max(1, Math.min(Number(limit) ||
DEFAULT_LIMIT, MAX_LIMIT)); none models an absent option, for which the
destructuring default DEFAULT_LIMIT = 10 applies. -/
def safeLimit (limit : Option JsNum) : JsNum :=
  jsMax (.finite 1) (jsMin (jsOr (limit.getD (.finite 10)) (.finite 10)) (.finite 10000))

/-- Canonical array-index property keys, which JavaScript objects iterate
first in ascending numeric order (ECMA OrdinaryOwnPropertyKeys). -/
def isCanonicalIndex (s : String) : Option Nat :=
  match s.data with
  | [] => none
  | ['0'] => some 0
  | c :: rest =>
    if c != '0' && (c :: rest).all Char.isDigit then
      let n := digitsVal (c :: rest)
      if n < 4294967295 then some n else none
    else none

/-- Insertion into an index-sorted list. -/
def insertByIdx (p : Nat × String × JVal) :
    List (Nat × String × JVal) → List (Nat × String × JVal)
  | [] => [p]
  | q :: rest => if p.1 ≤ q.1 then p :: q :: rest else q :: insertByIdx p rest

/-- Insertion sort of indexed keys by ascending numeric value. -/
def sortByIdx : List (Nat × String × JVal) → List (Nat × String × JVal)
  | [] => []
  | p :: rest => insertByIdx p (sortByIdx rest)

/-- Object.entries iteration order over a JavaScript object modelled as an
insertion-ordered association list: canonical array-index keys first in
ascending numeric order, then the remaining keys in insertion order. -/
def jsEntries (l : List (String × JVal)) : List (String × JVal) :=
  (sortByIdx (l.filterMap (fun kv => (isCanonicalIndex kv.1).map (fun n => (n, kv))))).map
      (fun p => p.2) ++
    l.filter (fun kv => (isCanonicalIndex kv.1).isNone)

/-- The (text, params) pair produced by the query builder. -/
structure Statement where
  sql : String
  params : List JVal

/-- Options object of buildSimilarityQuery; none models an absent
property, for which the destructuring defaults apply. -/
structure QueryOpts where
  table : Option String := none
  column : Option String := none
  vector : List JsNum := []
  metric : Option String := none
  limit : Option JsNum := none
  filter : Option (List (String × JVal)) := none
  idColumn : Option String := none
  select : Option String := none
  whereSql : Option String := none

/-- JavaScript falsiness of an optional string. -/
def strFalsy : Option String → Bool
  | none => true
  | some s => s.data = []

/-- The filter loop of buildSimilarityQuery: for each entry pushes the
value onto params and an escapedKey = dollar-N clause onto the WHERE
list; n is the parameter position of the next pushed value. -/
def filterClauses : List (String × JVal) → Nat → Except String (List JVal × List String)
  | [], _ => .ok ([], [])
  | (k, v) :: rest, n => do
    let kid ← escapeIdentifier (some k)
    let pr ← filterClauses rest (n + 1)
    .ok (v :: pr.1, (kid ++ " = $" ++ Nat.repr n) :: pr.2)

/-- buildSimilarityQuery: validates table/column, escapes identifiers,
resolves the metric operator, builds params (vector literal first, then
filter values in Object.entries order), assembles the WHERE clause and
the clamped LIMIT into the statement text. -/
def buildSimilarityQuery (o : QueryOpts) : Except String Statement :=
  if strFalsy o.table || strFalsy o.column then
    .error ("table and column are required")
  else do
    let safeTable ← escapeIdentifier o.table
    let safeColumn ← escapeIdentifier o.column
    let safeSelect := escapeSelectClause (o.select.getD ("*"))
    let op := metricOp (o.metric.getD ("cosine"))
    let entries := jsEntries (o.filter.getD [])
    let pw ← filterClauses entries 2
    let whereParts := pw.2 ++
      (match o.whereSql with
       | some w => if w.data = [] then [] else ["(" ++ w ++ ")"]
       | none => [])
    let whereClause :=
      if whereParts = [] then "" else "WHERE " ++ joinSep " AND " whereParts
    let lim := safeLimit o.limit
    .ok ⟨"SELECT " ++ safeSelect ++ ", " ++ safeColumn ++ " " ++ op ++
          " $1 AS similarity FROM " ++ safeTable ++ " " ++ whereClause ++
          " ORDER BY similarity ASC LIMIT " ++ lim.toStr,
        JVal.str (vectorLiteral o.vector) :: pw.1⟩

/-- Expected WHERE fragments of the spec: one escapedKey = positional
clause per filter entry, positions numbered from n upward. -/
def clauseStrings : List (String × JVal) → Nat → List String
  | [], _ => []
  | (k, _) :: rest, n =>
    (formatIdent k ++ " = $" ++ Nat.repr n) :: clauseStrings rest (n + 1)

/-- Expected WHERE text of the spec: the filter clauses followed by the
parenthesised raw expression when one is given, ANDed together; empty
when there is neither. -/
def whereText (entries : List (String × JVal)) (whereSql : Option String) : String :=
  let parts := clauseStrings entries 2 ++
    (match whereSql with
     | some w => if w.data = [] then [] else ["(" ++ w ++ ")"]
     | none => [])
  if parts = [] then "" else "WHERE " ++ joinSep " AND " parts

/-! createPool from src/lib/client.js and the validating constructor of
src/nodes/pgvector-config.js. -/

/-- Configuration accepted by createPool; none models an absent property,
for which the POOL_DEFAULTS destructuring defaults apply. -/
structure PoolConfig where
  host : Option String := none
  port : Option JsNum := none
  database : Option String := none
  user : Option String := none
  password : Option String := none
  ssl : Bool := false
  max : Option JsNum := none
  idleTimeoutMillis : Option JsNum := none
  connectionTimeoutMillis : Option JsNum := none

/-- The pg Pool as constructed by createPool: the configuration it was
handed, defaults applied.  Construction never validates or fails. -/
structure Pool where
  host : Option String
  port : JsNum
  database : Option String
  user : Option String
  password : Option String
  ssl : Bool
  max : JsNum
  idleTimeoutMillis : JsNum
  connectionTimeoutMillis : JsNum
deriving DecidableEq

/-- createPool: applies the POOL_DEFAULTS (port 5432, max 10, idle 30000,
connect 10000) and constructs the pool; there is no validation of any
field. -/
def createPool (c : PoolConfig) : Pool where
  host := c.host
  port := c.port.getD (.finite 5432)
  database := c.database
  user := c.user
  password := c.password
  ssl := c.ssl
  max := c.max.getD (.finite 10)
  idleTimeoutMillis := c.idleTimeoutMillis.getD (.finite 30000)
  connectionTimeoutMillis := c.connectionTimeoutMillis.getD (.finite 10000)

/-- Editor configuration of the pgvector-config node: port and max are
the values after the Number() coercion the constructor applies, none
models an unset field (the != null defaults apply). -/
structure NodeConfig where
  host : Option String := none
  port : Option JsNum := none
  database : Option String := none
  ssl : Bool := false
  max : Option JsNum := none

/-- Credentials stored for the config node. -/
structure NodeCredentials where
  user : Option String := none
  password : Option String := none

/-- Observable outcome of the config-node constructor: the validation
error messages and the pool (null when validation failed). -/
structure NodeInitResult where
  errors : List String
  pool : Option Pool
deriving DecidableEq

/-- The !x || typeof x !== string || x.trim() === empty validation used
for host, database and user. -/
def strBlank : Option String → Bool
  | none => true
  | some s => s.data = [] || chTrim s.data = []

/-- The validating part of the PgvectorConfigNode constructor: collects
validation errors in order and creates the pool only when there are none
(ssl true is passed as the rejectUnauthorized-false object, modelled as
the boolean). -/
def pgvectorConfigNodeInit (cfg : NodeConfig) (creds : NodeCredentials) :
    NodeInitResult :=
  let port := cfg.port.getD (.finite 5432)
  let poolMax := cfg.max.getD (.finite 10)
  let errors :=
    (if strBlank cfg.host then ["Host is required"] else []) ++
    (if strBlank cfg.database then ["Database name is required"] else []) ++
    (if port.ltB (.finite 1) || port.gtB (.finite 65535) then
      ["Port must be between 1 and 65535"] else []) ++
    (if poolMax.ltB (.finite 1) || poolMax.gtB (.finite 100) then
      ["Pool size must be between 1 and 100"] else []) ++
    (if strBlank creds.user then
      ["Database user is required (configure in node settings)"] else []) ++
    (if (match creds.password with | none => true | some s => s.data = []) then
      ["Database password is required (configure in node settings)"] else [])
  { errors := errors
    pool :=
      if errors = [] then
        some (createPool
          { host := cfg.host, port := some port, database := cfg.database,
            user := creds.user, password := creds.password, ssl := cfg.ssl,
            max := some poolMax })
      else none }

/-! queryWithRetry from src/lib/client.js. -/

/-- A JavaScript error as the retry classifier observes it: an optional
code property and a message. -/
structure JsError where
  code : Option String := none
  message : String := ""
deriving DecidableEq

/-- Whether the first list occurs as a contiguous run inside the second. -/
def listInfix (needle : List Char) : List Char → Bool
  | [] => needle.isPrefixOf []
  | c :: rest => needle.isPrefixOf (c :: rest) || listInfix needle rest

/-- Substring test (String.prototype.includes). -/
def containsSubstr (hay needle : String) : Bool :=
  listInfix needle.data hay.data

/-- The retryable-error classification of queryWithRetry. -/
def isRetryable (e : JsError) : Bool :=
  e.code == some ("ECONNREFUSED") || e.code == some ("ENOTFOUND") ||
  e.code == some ("ETIMEDOUT") || e.code == some ("57P03") ||
  e.code == some ("53300") ||
  containsSubstr e.message ("timeout") ||
  containsSubstr e.message ("Connection terminated")

/-- Observable outcome of the retry loop: the propagated result, the
number of executed attempts, and the backoff delays slept between
attempts, in order. -/
structure RetryOutcome (α : Type) where
  result : Except JsError α
  attempts : Nat
  delays : List Nat

/-- The retry loop of queryWithRetry.  The attempt-indexed oracle exec
gives each attempt's outcome; remaining = maxRetries - attempt, so the
attempt === maxRetries check of the source is remaining = 0 (the loop
always returns or throws before exhausting its bound, so the trailing
unreachable throw of the source needs no model). -/
def retryGo {α : Type} (exec : Nat → Except JsError α) (retryDelay : Nat) :
    Nat → Nat → RetryOutcome α
  | attempt, 0 =>
    match exec attempt with
    | .ok r => ⟨.ok r, 1, []⟩
    | .error e => ⟨.error e, 1, []⟩
  | attempt, remaining + 1 =>
    match exec attempt with
    | .ok r => ⟨.ok r, 1, []⟩
    | .error e =>
      if isRetryable e then
        let rest := retryGo exec retryDelay (attempt + 1) remaining
        ⟨rest.result, rest.attempts + 1, retryDelay * 2 ^ attempt :: rest.delays⟩
      else ⟨.error e, 1, []⟩

/-- queryWithRetry: up to maxRetries + 1 attempts starting at attempt 0,
with exponential backoff retryDelay * 2 ^ attempt after each retryable
failure that is not the last allowed attempt. -/
def queryWithRetry {α : Type} (exec : Nat → Except JsError α)
    (maxRetries retryDelay : Nat) : RetryOutcome α :=
  retryGo exec retryDelay 0 maxRetries

/-! withClient from src/lib/client.js, as a trace semantics. -/

/-- Pool-visible events of one withClient execution. -/
inductive PoolEv where
  | acquire
  | timeoutStmt
  | callFn
  | release
deriving DecidableEq

/-- One executed computation: its outcome and the pool events it emitted,
in order. -/
structure Run (α : Type) where
  result : Except JsError α
  trace : List PoolEv

/-- Sequencing of runs: the second run happens only when the first
succeeded. -/
def runBind {α β : Type} (x : Run α) (k : α → Run β) : Run β :=
  match x.result with
  | .ok a => ⟨(k a).result, x.trace ++ (k a).trace⟩
  | .error e => ⟨.error e, x.trace⟩

/-- JavaScript try/finally: the finally block always runs; an exception
thrown by it replaces the body's outcome, otherwise the body's outcome
(return or throw) is propagated. -/
def tryFinallyRun {α : Type} (body : Run α) (fin : Run Unit) : Run α :=
  ⟨match fin.result with
    | .error e => .error e
    | .ok _ => body.result,
   body.trace ++ fin.trace⟩

/-- pool.connect(): emits an acquire event exactly when it succeeds. -/
def connectRun (r : Except JsError Unit) : Run Unit :=
  ⟨r, match r with | .ok _ => [PoolEv.acquire] | .error _ => []⟩

/-- client.release(): never throws, emits a release event. -/
def releaseRun : Run Unit := ⟨.ok (), [PoolEv.release]⟩

/-- A query on the acquired client: no pool event beyond its marker. -/
def clientQueryRun {α : Type} (r : Except JsError α) (ev : PoolEv) : Run α :=
  ⟨r, [ev]⟩

/-- The timeout && timeout > 0 guard of withClient. -/
def timeoutTruthyPos (t : Option JsNum) : Bool :=
  match t with
  | some v => !v.isFalsy && (JsNum.finite 0).ltB v
  | none => false

/-- withClient: connect, then inside try/finally optionally apply the
statement-timeout SET, run the caller's function, and always release.
connectR, setR and fnR are the outcomes of the three awaited steps. -/
def withClient {α : Type} (connectR : Except JsError Unit)
    (setR : Except JsError Unit) (fnR : Except JsError α)
    (timeout : Option JsNum) : Run α :=
  runBind (connectRun connectR) (fun _ =>
    tryFinallyRun
      (runBind
        (if timeoutTruthyPos timeout then clientQueryRun setR .timeoutStmt
         else ⟨.ok (), []⟩)
        (fun _ => clientQueryRun fnR .callFn))
      releaseRun)

/-! Helper lemmas. -/

/-- Lexing the quote-doubled body followed by the closing quote recovers
exactly the original identifier and consumes the whole input. -/
theorem lexQuoteBody_roundtrip :
    ∀ cs, lexQuoteBody (doubleQuotes cs ++ ['"']) = some (cs, [])
  | [] => rfl
  | c :: rest => by
    have ih := lexQuoteBody_roundtrip rest
    by_cases hc : c = '"'
    · subst hc
      simpa [doubleQuotes, lexQuoteBody] using ih
    · rcases h : doubleQuotes rest ++ ['"'] with _ | ⟨d, ds⟩
      · exact absurd h (by simp)
      · have hdq : doubleQuotes (c :: rest) ++ ['"'] = c :: d :: ds := by
          simp [doubleQuotes, hc, h]
        have hstep : lexQuoteBody (c :: d :: ds) =
            (lexQuoteBody (d :: ds)).map (fun p => (c :: p.1, p.2)) := by
          simp [lexQuoteBody, hc]
        rw [hdq, hstep, ← h, ih]
        rfl

/-- A successful escapeIdentifier call returns exactly the pg-format
escaping of its input. -/
theorem escapeIdentifier_ok_eq (s r : String)
    (h : escapeIdentifier (some s) = .ok r) : r = formatIdent s := by
  by_cases hs : s.data = []
  · simp [escapeIdentifier, hs] at h
  · simp only [escapeIdentifier, hs, if_false, Except.ok.injEq] at h
    exact h.symm

/-- A successful filter loop returns the entry values in order and the
expected clause strings. -/
theorem filterClauses_ok :
    ∀ (l : List (String × JVal)) (n : Nat) (pr : List JVal × List String),
      filterClauses l n = .ok pr →
      pr = (l.map Prod.snd, clauseStrings l n)
  | [], n, pr, h => by
    simp only [filterClauses] at h
    cases h
    rfl
  | (k, v) :: rest, n, pr, h => by
    simp only [filterClauses] at h
    cases hk : escapeIdentifier (some k) with
    | error e => rw [hk] at h; simp [Bind.bind, Except.bind] at h
    | ok kid =>
      rw [hk] at h
      cases hrest : filterClauses rest (n + 1) with
      | error e => rw [hrest] at h; simp [Bind.bind, Except.bind] at h
      | ok pr2 =>
        rw [hrest] at h
        simp only [Bind.bind, Except.bind, Except.ok.injEq] at h
        have ih := filterClauses_ok rest (n + 1) pr2 hrest
        subst ih
        rw [escapeIdentifier_ok_eq k kid hk] at h
        simp [← h, clauseStrings]

/-- Position i of the expected clause list carries the parameter number
i + n. -/
theorem clauseStrings_get :
    ∀ (l : List (String × JVal)) (n i : Nat),
      (clauseStrings l n).get? i =
        (l.get? i).map (fun kv => formatIdent kv.1 ++ " = $" ++ Nat.repr (i + n))
  | [], n, i => by simp [clauseStrings]
  | (k, v) :: rest, n, 0 => by simp [clauseStrings]
  | (k, v) :: rest, n, i + 1 => by
    have ih := clauseStrings_get rest (n + 1) i
    have hni : i + (n + 1) = i + 1 + n := by omega
    rw [hni] at ih
    simpa [clauseStrings] using ih

/-- Closed form of a successful buildSimilarityQuery call: the params are
the vector literal followed by the filter values in Object.entries order,
and the statement text is the assembled SELECT with the expected WHERE
text and the clamped LIMIT rendering. -/
theorem buildSimilarityQuery_ok_spec :
    ∀ (o : QueryOpts) (st : Statement), buildSimilarityQuery o = .ok st →
      ∃ t c : String, o.table = some t ∧ o.column = some c ∧
        st.params = JVal.str (vectorLiteral o.vector) ::
          (jsEntries (o.filter.getD [])).map Prod.snd ∧
        st.sql = "SELECT " ++ escapeSelectClause (o.select.getD ("*")) ++ ", " ++
          formatIdent c ++ " " ++ metricOp (o.metric.getD ("cosine")) ++
          " $1 AS similarity FROM " ++ formatIdent t ++ " " ++
          whereText (jsEntries (o.filter.getD [])) o.whereSql ++
          " ORDER BY similarity ASC LIMIT " ++ (safeLimit o.limit).toStr := by
  intro o st h
  by_cases hcond : (strFalsy o.table || strFalsy o.column) = true
  · rw [buildSimilarityQuery, if_pos hcond] at h
    cases h
  · rw [buildSimilarityQuery, if_neg hcond] at h
    have hTC := Bool.or_eq_false_iff.mp (Bool.not_eq_true _ |>.mp hcond)
    cases hT : o.table with
    | none => rw [hT] at hTC; simp [strFalsy] at hTC
    | some t =>
      cases hC : o.column with
      | none => rw [hC] at hTC; simp [strFalsy] at hTC
      | some c =>
        rw [hT, hC] at hTC h
        have ht : t.data ≠ [] := by
          have := hTC.1; simpa [strFalsy] using this
        have hc : c.data ≠ [] := by
          have := hTC.2; simpa [strFalsy] using this
        rw [show escapeIdentifier (some t) = .ok (formatIdent t) by
          simp [escapeIdentifier, ht]] at h
        rw [show escapeIdentifier (some c) = .ok (formatIdent c) by
          simp [escapeIdentifier, hc]] at h
        simp only [Bind.bind, Except.bind] at h
        cases hfc : filterClauses (jsEntries (o.filter.getD [])) 2 with
        | error e =>
          rw [hfc] at h
          cases h
        | ok pr =>
          rw [hfc] at h
          have hpr := filterClauses_ok _ _ _ hfc
          subst hpr
          simp only [Except.ok.injEq] at h
          refine ⟨t, c, rfl, rfl, ?_, ?_⟩
          · rw [← h]
          · rw [← h]
            simp only [whereText]

/-! C1. -/

/-- C1, counterexample: parseVector accepts an array containing NaN and
returns it unfiltered, so not every element of an accepted input's result
is finite. -/
theorem parseVector_nonfinite_cex :
    parseVector (.arr [JVal.num JsNum.nan]) = .ok (some [JsNum.nan]) ∧
      JsNum.nan.isFinite = false :=
  ⟨rfl, rfl⟩

/-- C1, amended: only the CSV branch filters non-finite values, so every
element of a vector parsed from a comma-containing string that does not
take the JSON-array branch is finite; array, JSON-array and base64 inputs
can yield NaN or infinite elements. -/
theorem parseVector_csv_all_finite :
    ∀ (s : String) (v : List JsNum),
      startsWithBracket (chTrim s.data) = false →
      (chTrim s.data).contains ',' = true →
      parseVector (.str s) = .ok (some v) →
      ∀ x ∈ v, x.isFinite = true := by
  intro s v h1 h2 h3 x hx
  simp only [parseVector, parseVectorStr, h1, Bool.false_eq_true, if_false,
    parseVectorFallback, h2, if_true] at h3
  obtain rfl := (Option.some_inj.mp (Except.ok.inj h3)).symm
  simp only [List.mem_filter] at hx
  exact hx.2

/-- C1, witness for the amended theorem at the spec's own example input. -/
theorem parseVector_csv_all_finite_witness :
    startsWithBracket (chTrim (" 1, abc, 3").data) = false ∧
      (chTrim (" 1, abc, 3").data).contains ',' = true ∧
      parseVector (.str " 1, abc, 3") = .ok (some [.finite 1, .finite 3]) ∧
      ∀ x ∈ [JsNum.finite 1, JsNum.finite 3], x.isFinite = true :=
  ⟨rfl, rfl, rfl,
    parseVector_csv_all_finite (" 1, abc, 3") [.finite 1, .finite 3] rfl rfl rfl⟩

/-! C2. -/

/-- C2: escapeIdentifier fails for null/non-string and empty input; a
nonempty name of word characters and dots is returned unchanged; any
other name is wrapped in double quotes with internal quotes doubled, and
lexing one standard SQL quoted-identifier token from that output consumes
the entire output and recovers exactly the original name — so even an
injection payload stays a single identifier token. -/
theorem escapeIdentifier_spec :
    escapeIdentifier none = .error invalidIdentMsg ∧
    escapeIdentifier (some "") = .error invalidIdentMsg ∧
    ∀ s : String, s.data ≠ [] →
      (s.data.all isIdentChar = true → escapeIdentifier (some s) = .ok s) ∧
      (s.data.all isIdentChar = false →
        escapeIdentifier (some s) =
          .ok (String.mk ('"' :: (doubleQuotes s.data ++ ['"']))) ∧
        lexQuotedIdent (formatIdent s) = some (s, "")) := by
  refine ⟨rfl, rfl, fun s hs => ⟨fun hall => ?_, fun hnot => ⟨?_, ?_⟩⟩⟩
  · simp [escapeIdentifier, hs, formatIdent, hall]
  · simp [escapeIdentifier, hs, formatIdent, hnot]
  · have hdq : formatIdent s = String.mk ('"' :: (doubleQuotes s.data ++ ['"'])) := by
      simp [formatIdent, hnot]
    rw [hdq]
    simp only [lexQuotedIdent, lexQuoteBody_roundtrip, Option.map_some]
    cases s
    rfl

/-- C2, witness: the two failure cases and both identifier shapes at
concrete inputs, including the spec's injection payload. -/
theorem escapeIdentifier_spec_witness :
    escapeIdentifier (some "users") = .ok "users" ∧
      escapeIdentifier (some "users; DROP TABLE users; --") =
        .ok "\"users; DROP TABLE users; --\"" ∧
      lexQuotedIdent (formatIdent ("users; DROP TABLE users; --")) =
        some ("users; DROP TABLE users; --", "") := by
  have h1 := (escapeIdentifier_spec.2.2 "users" (by decide)).1 (by decide)
  have h2 := (escapeIdentifier_spec.2.2 "users; DROP TABLE users; --" (by decide)).2
    (by decide)
  exact ⟨h1, h2.1.trans (by rfl), h2.2⟩

/-! C3. -/

/-- C3, counterexample: createPool performs no validation at all — handed
a pool size of 0 and a port of 70000, both out of range, it constructs
and returns a pool carrying those values instead of failing. -/
theorem createPool_no_validation_cex :
    createPool
        { host := some "db.example", port := some (.finite 70000),
          database := some "d", user := some "u", password := some "p",
          max := some (.finite 0) } =
      { host := some "db.example", port := .finite 70000,
        database := some "d", user := some "u", password := some "p",
        ssl := false, max := .finite 0, idleTimeoutMillis := .finite 30000,
        connectionTimeoutMillis := .finite 10000 } := rfl

/-- C3, amended: the bounds validation lives in the pgvector-config node
constructor, not in createPool: for a numeric port outside [1, 65535] or
a numeric pool size outside [1, 100] the constructor records the
descriptive validation error and sets the pool to null instead of
creating one. -/
theorem configNode_validates_bounds :
    (∀ (cfg : NodeConfig) (creds : NodeCredentials) (q : ℚ),
      cfg.port = some (.finite q) → (q < 1 ∨ 65535 < q) →
      "Port must be between 1 and 65535" ∈
          (pgvectorConfigNodeInit cfg creds).errors ∧
        (pgvectorConfigNodeInit cfg creds).pool = none) ∧
    (∀ (cfg : NodeConfig) (creds : NodeCredentials) (q : ℚ),
      cfg.max = some (.finite q) → (q < 1 ∨ 100 < q) →
      "Pool size must be between 1 and 100" ∈
          (pgvectorConfigNodeInit cfg creds).errors ∧
        (pgvectorConfigNodeInit cfg creds).pool = none) := by
  constructor
  · intro cfg creds q hport hq
    have hcond : ((cfg.port.getD (.finite 5432)).ltB (.finite 1) ||
        (cfg.port.getD (.finite 5432)).gtB (.finite 65535)) = true := by
      rw [hport]
      rcases hq with h | h <;> simp [Option.getD, JsNum.ltB, JsNum.gtB, h]
    have hm : "Port must be between 1 and 65535" ∈
        (pgvectorConfigNodeInit cfg creds).errors := by
      simp only [pgvectorConfigNodeInit, hcond, if_true, List.mem_append,
        List.mem_singleton]
      tauto
    refine ⟨hm, ?_⟩
    have hne := List.ne_nil_of_mem hm
    simp only [pgvectorConfigNodeInit] at hne ⊢
    rw [if_neg hne]
  · intro cfg creds q hmax hq
    have hcond : ((cfg.max.getD (.finite 10)).ltB (.finite 1) ||
        (cfg.max.getD (.finite 10)).gtB (.finite 100)) = true := by
      rw [hmax]
      rcases hq with h | h <;> simp [Option.getD, JsNum.ltB, JsNum.gtB, h]
    have hm : "Pool size must be between 1 and 100" ∈
        (pgvectorConfigNodeInit cfg creds).errors := by
      simp only [pgvectorConfigNodeInit, hcond, if_true, List.mem_append,
        List.mem_singleton]
      tauto
    refine ⟨hm, ?_⟩
    have hne := List.ne_nil_of_mem hm
    simp only [pgvectorConfigNodeInit] at hne ⊢
    rw [if_neg hne]

/-- C3, witness for the amended theorem: a port of 70000 and a pool size
of 0 each produce the descriptive error and a null pool. -/
theorem configNode_validates_bounds_witness :
    ("Port must be between 1 and 65535" ∈
        (pgvectorConfigNodeInit
          { host := some "h", port := some (.finite 70000), database := some "d" }
          { user := some "u", password := some "p" }).errors ∧
      (pgvectorConfigNodeInit
          { host := some "h", port := some (.finite 70000), database := some "d" }
          { user := some "u", password := some "p" }).pool = none) ∧
    ("Pool size must be between 1 and 100" ∈
        (pgvectorConfigNodeInit
          { host := some "h", database := some "d", max := some (.finite 0) }
          { user := some "u", password := some "p" }).errors ∧
      (pgvectorConfigNodeInit
          { host := some "h", database := some "d", max := some (.finite 0) }
          { user := some "u", password := some "p" }).pool = none) :=
  ⟨configNode_validates_bounds.1 _ _ 70000 rfl (Or.inr (by norm_num)),
    configNode_validates_bounds.2 _ _ 0 rfl (Or.inl (by norm_num))⟩

/-! C4. -/

/-- Closed form of the retry loop when every attempt in range fails with a
retryable error. -/
theorem retryGo_all_retryable {α : Type} (exec : Nat → Except JsError α)
    (errs : Nat → JsError) (d : Nat) :
    ∀ (remaining attempt : Nat),
      (∀ i, attempt ≤ i → i ≤ attempt + remaining →
        exec i = .error (errs i) ∧ isRetryable (errs i) = true) →
      retryGo exec d attempt remaining =
        ⟨.error (errs (attempt + remaining)), remaining + 1,
          (List.range remaining).map (fun j => d * 2 ^ (attempt + j))⟩
  | 0, attempt, h => by
    have h0 := h attempt le_rfl (by omega)
    simp [retryGo, h0.1]
  | remaining + 1, attempt, h => by
    have h0 := h attempt le_rfl (by omega)
    have ih := retryGo_all_retryable exec errs d remaining (attempt + 1)
      (fun i hi1 hi2 => h i (by omega) (by omega))
    have hidx : attempt + 1 + remaining = attempt + (remaining + 1) := by omega
    have hr : (List.range (remaining + 1)).map (fun j => d * 2 ^ (attempt + j)) =
        d * 2 ^ attempt ::
          (List.range remaining).map (fun j => d * 2 ^ (attempt + 1 + j)) := by
      rw [List.range_succ_eq_map, List.map_cons, List.map_map, Nat.add_zero]
      refine congrArg _ (List.map_congr_left fun j hj => ?_)
      have hj2 : attempt + Nat.succ j = attempt + 1 + j := by omega
      simp [Function.comp, hj2]
    rw [hr, ← hidx]
    simp [retryGo, h0.1, h0.2, ih]

/-- C4: when every attempt fails with a retryable error, queryWithRetry
with maxRetries = n executes exactly n + 1 attempts, sleeps
retryDelay * 2 ^ attemptIndex before each re-attempt, and propagates the
error of the final attempt unchanged. -/
theorem queryWithRetry_exhausts_retryable {α : Type}
    (exec : Nat → Except JsError α) (errs : Nat → JsError) (n d : Nat)
    (hexec : ∀ i, i ≤ n → exec i = .error (errs i))
    (hretry : ∀ i, i ≤ n → isRetryable (errs i) = true) :
    queryWithRetry exec n d =
      ⟨.error (errs n), n + 1, (List.range n).map (fun i => d * 2 ^ i)⟩ := by
  have h := retryGo_all_retryable exec errs d n 0
    (fun i h1 h2 => ⟨hexec i (by omega), hretry i (by omega)⟩)
  simpa using h

/-- C4, witness: a connection-refused failure on every attempt with
maxRetries = 2 yields exactly 3 attempts, delays 1000 and 2000, and the
original error. -/
theorem queryWithRetry_exhausts_retryable_witness :
    isRetryable ⟨some ("ECONNREFUSED"), "connect ECONNREFUSED 10.0.0.5:5432"⟩ = true ∧
      queryWithRetry
          (fun _ => (.error ⟨some ("ECONNREFUSED"), "connect ECONNREFUSED 10.0.0.5:5432"⟩ :
            Except JsError Unit)) 2 1000 =
        ⟨.error ⟨some ("ECONNREFUSED"), "connect ECONNREFUSED 10.0.0.5:5432"⟩, 3,
          [1000, 2000]⟩ :=
  ⟨rfl,
    (queryWithRetry_exhausts_retryable
        (fun _ => .error ⟨some ("ECONNREFUSED"), "connect ECONNREFUSED 10.0.0.5:5432"⟩)
        (fun _ => ⟨some ("ECONNREFUSED"), "connect ECONNREFUSED 10.0.0.5:5432"⟩) 2 1000
        (fun _ _ => rfl) (fun _ _ => rfl)).trans rfl⟩

/-! C5. -/

/-- C5: an error classified as fatal (not retryable) is propagated after
the first attempt, with no further attempt and no backoff delay. -/
theorem queryWithRetry_fatal_first_attempt {α : Type}
    (exec : Nat → Except JsError α) (e : JsError) (n d : Nat)
    (h0 : exec 0 = .error e) (hfatal : isRetryable e = false) :
    queryWithRetry exec n d = ⟨.error e, 1, []⟩ := by
  cases n with
  | zero => simp [queryWithRetry, retryGo, h0]
  | succ m => simp [queryWithRetry, retryGo, h0, hfatal]

/-- C5, witness: a permission-denied error (neither a connection code nor
a timeout/terminated message) propagates on the first of 4 allowed
attempts with an empty delay list. -/
theorem queryWithRetry_fatal_first_attempt_witness :
    isRetryable ⟨some ("42501"), "permission denied for table embeddings"⟩ = false ∧
      queryWithRetry
          (fun _ => (.error ⟨some ("42501"), "permission denied for table embeddings"⟩ :
            Except JsError Unit)) 3 1000 =
        ⟨.error ⟨some ("42501"), "permission denied for table embeddings"⟩, 1, []⟩ :=
  ⟨rfl,
    queryWithRetry_fatal_first_attempt
      (fun _ => .error ⟨some ("42501"), "permission denied for table embeddings"⟩)
      ⟨some ("42501"), "permission denied for table embeddings"⟩ 3 1000 rfl rfl⟩

/-! C6. -/

/-- C6: in every execution of withClient — connect failing, the
statement-timeout SET failing, the caller's function returning or
throwing — the number of releases equals the number of acquires, and
whenever a connection was acquired the release is the last pool event,
i.e. it happens before the result or error is propagated. -/
theorem withClient_releases_on_every_path :
    ∀ (α : Type) (connectR setR : Except JsError Unit) (fnR : Except JsError α)
      (timeout : Option JsNum),
      ((withClient connectR setR fnR timeout).trace.count PoolEv.acquire =
        (withClient connectR setR fnR timeout).trace.count PoolEv.release) ∧
      (PoolEv.acquire ∈ (withClient connectR setR fnR timeout).trace →
        (withClient connectR setR fnR timeout).trace.getLast? =
          some PoolEv.release) := by
  intro α connectR setR fnR timeout
  cases connectR with
  | error e => simp [withClient, runBind, connectRun]
  | ok u =>
    cases htp : timeoutTruthyPos timeout <;> cases setR <;> cases fnR <;>
      simp [withClient, runBind, connectRun, tryFinallyRun, releaseRun,
        clientQueryRun, htp]

/-! C9. -/

/-- C9: the JSON-array attempt precedes the CSV and base64 attempts: a
string whose trimmed form starts with a bracket and parses as a JSON
array yields exactly the JSON elements coerced to numbers (never the CSV
split); the three spec inputs agree; and a bracket-string that is not
valid JSON falls through to the remaining formats (the code after the
JSON attempt) instead of failing immediately. -/
theorem parseVector_json_precedence :
    (∀ (s : String) (xs : List JVal),
      startsWithBracket (chTrim s.data) = true →
      jsonParse (chTrim s.data) = some (.arr xs) →
      parseVector (.str s) = .ok (some (xs.map jsToNum))) ∧
    parseVector (.str "[1,2,3]") = .ok (some [.finite 1, .finite 2, .finite 3]) ∧
    parseVector (.str "1,2,3") = .ok (some [.finite 1, .finite 2, .finite 3]) ∧
    parseVector (.arr [.num (.finite 1), .num (.finite 2), .num (.finite 3)]) =
      .ok (some [.finite 1, .finite 2, .finite 3]) ∧
    (∀ s : String, startsWithBracket (chTrim s.data) = true →
      jsonParse (chTrim s.data) = none →
      parseVector (.str s) = parseVectorFallback (chTrim s.data)) := by
  refine ⟨?_, rfl, rfl, rfl, ?_⟩
  · intro s xs h1 h2
    simp [parseVector, parseVectorStr, h1, h2]
  · intro s h1 h2
    simp [parseVector, parseVectorStr, h1, h2]

/-- C9, witness: the universal JSON-array part at a spaced JSON input, and
the fall-through part at the invalid bracket-string of the spec. -/
theorem parseVector_json_precedence_witness :
    parseVector (.str "[1, 2, 3]") =
      .ok (some ([JVal.num (.finite 1), JVal.num (.finite 2),
        JVal.num (.finite 3)].map jsToNum)) ∧
      parseVector (.str "[1,2") = parseVectorFallback (chTrim ("[1,2").data) :=
  ⟨parseVector_json_precedence.1 "[1, 2, 3]"
      [JVal.num (.finite 1), JVal.num (.finite 2), JVal.num (.finite 3)] rfl rfl,
    parseVector_json_precedence.2.2.2.2 "[1,2" rfl rfl⟩

/-! C10. -/

/-- C10, counterexample: "1234" satisfies the claim's success condition
(base64 alphabet, length a positive multiple of 4), yet parseVector
throws UnsupportedFormat instead of returning the packed-byte
reinterpretation, because the 3 decoded bytes are not a multiple of 4;
"123" throws as the claim says. -/
theorem parseVector_b64_digits_cex :
    ("1234".data.all b64Char = true ∧ "1234".length % 4 = 0 ∧
        0 < "1234".length) ∧
      parseVector (.str "1234") = .error vecFormatErr ∧
      parseVector (.str "123") = .error vecFormatErr :=
  ⟨⟨rfl, rfl, by decide⟩, rfl, rfl⟩

/-- C10, amended: a comma-free string not starting with a bracket
succeeds only when it matches the base64 regex, its length is a positive
multiple of 4, and additionally the decoded byte count is a multiple of
4; in that case the result is the little-endian float32 reinterpretation
of the decoded bytes, otherwise UnsupportedFormat — so a bare digit
string is never parsed as a one-element vector. -/
theorem parseVector_b64_spec :
    (∀ s : String,
      startsWithBracket (chTrim s.data) = false →
      (chTrim s.data).contains ',' = false →
      parseVector (.str s) =
        (if ((chTrim s.data).all b64Char && (chTrim s.data).length % 4 = 0 &&
              0 < (chTrim s.data).length) &&
            (nodeB64Decode (chTrim s.data)).length % 4 = 0
         then .ok (some (bytesToF32s (nodeB64Decode (chTrim s.data))))
         else .error vecFormatErr)) ∧
    parseVector (.str "AACAPwAAAEAAAEBA") =
      .ok (some [.finite 1, .finite 2, .finite 3]) := by
  refine ⟨?_, rfl⟩
  intro s h1 h2
  have h2' : ',' ∉ chTrim s.data := by simpa using h2
  simp only [parseVector, parseVectorStr, h1, Bool.false_eq_true, if_false]
  by_cases hB : (chTrim s.data).length % 4 = 0 <;>
    by_cases hC : 0 < (chTrim s.data).length <;>
      by_cases hD : (nodeB64Decode (chTrim s.data)).length % 4 = 0 <;>
        cases hA : (chTrim s.data).all b64Char <;>
          simp [parseVectorFallback, h2, h2', hA, hB, hC, hD]

/-- C10, witness for the amended theorem: the base64 encoding of the
float32 bytes of +Infinity decodes through the base64 branch. -/
theorem parseVector_b64_spec_witness :
    parseVector (.str "AACAfw==") = .ok (some [JsNum.inf]) :=
  (parseVector_b64_spec.1 "AACAfw==" rfl rfl).trans (by rfl)

/-! C7. -/

/-- C7, counterexample: a fractional requested limit of 5/2 survives the
clamp unchanged and is embedded as the literal 2.5, which is not an
integer — so the embedded LIMIT is not always a literal integer. -/
theorem buildSimilarityQuery_fractional_limit_cex :
    safeLimit (some (.finite (5 / 2))) = .finite (5 / 2) ∧
      (5 / 2 : ℚ).den ≠ 1 ∧
      buildSimilarityQuery
          { table := some "t", column := some "c", vector := [.finite 1],
            limit := some (.finite (5 / 2)) } =
        .ok ⟨"SELECT *, c <=> $1 AS similarity FROM t  ORDER BY similarity ASC LIMIT 2.5",
          [JVal.str ("[1]")]⟩ :=
  ⟨by decide, by decide, rfl⟩

/-- C7, amended: the embedded LIMIT equals
max(1, min(Number(limit) or 10, 10000)) — 99999 clamps to 10000,
absent/zero/NaN yields 10, any numeric value below 1 clamps to 1 — and
its decimal rendering is the trailing literal of the statement text; it
is an integer literal whenever the requested limit is an integer (or
absent/non-numeric), but a fractional in-range limit is embedded as a
fractional literal. -/
theorem buildSimilarityQuery_limit_clamped :
    (∀ q : ℚ, q ≠ 0 →
      safeLimit (some (.finite q)) = .finite (max 1 (min q 10000))) ∧
    safeLimit none = .finite 10 ∧
    safeLimit (some .nan) = .finite 10 ∧
    safeLimit (some (.finite 0)) = .finite 10 ∧
    safeLimit (some (.finite 99999)) = .finite 10000 ∧
    (∀ q : ℚ, q < 1 → q ≠ 0 → safeLimit (some (.finite q)) = .finite 1) ∧
    (∀ (o : QueryOpts) (st : Statement), buildSimilarityQuery o = .ok st →
      ∃ p : String,
        st.sql = p ++ " ORDER BY similarity ASC LIMIT " ++
          (safeLimit o.limit).toStr) := by
  refine ⟨?_, rfl, rfl, by decide, by decide, ?_, ?_⟩
  · intro q hq
    simp [safeLimit, jsOr, JsNum.isFalsy, hq, jsMin, jsMax, Option.getD]
  · intro q hlt hq
    have h1 : min q 10000 = q := min_eq_left (by linarith)
    have h2 : max 1 q = 1 := max_eq_left (le_of_lt hlt)
    simp [safeLimit, jsOr, JsNum.isFalsy, hq, jsMin, jsMax, Option.getD, h1, h2]
  · intro o st h
    obtain ⟨t, c, h1, h2, h3, h4⟩ := buildSimilarityQuery_ok_spec o st h
    exact ⟨_, h4⟩

/-- C7, witness for the amended theorem: the clamp formula at 7, and the
trailing-literal decomposition of a statement built with limit 99999
(clamped to 10000). -/
theorem buildSimilarityQuery_limit_clamped_witness :
    safeLimit (some (.finite 7)) = .finite (max 1 (min 7 10000)) ∧
      ∃ p : String,
        "SELECT *, c <=> $1 AS similarity FROM t  ORDER BY similarity ASC LIMIT 10000" =
          p ++ " ORDER BY similarity ASC LIMIT " ++
            (safeLimit (some (.finite 99999))).toStr :=
  ⟨buildSimilarityQuery_limit_clamped.1 7 (by norm_num),
    buildSimilarityQuery_limit_clamped.2.2.2.2.2.2
      { table := some "t", column := some "c", vector := [.finite 1],
        limit := some (.finite 99999) }
      ⟨"SELECT *, c <=> $1 AS similarity FROM t  ORDER BY similarity ASC LIMIT 10000",
        [JVal.str ("[1]")]⟩ rfl⟩

/-! C8. -/

/-- C8, counterexample: a filter whose keys are the integer-like strings
2 and 1 (inserted in that order) is iterated by Object.entries in
ascending numeric order, so the positional parameters are not in map
insertion order: the value of key 1 becomes the second parameter. -/
theorem buildSimilarityQuery_filter_order_cex :
    buildSimilarityQuery
        { table := some "t", column := some "c", vector := [.finite 1],
          filter := some [("2", .str ("b")), ("1", .str ("a"))] } =
      .ok ⟨"SELECT *, c <=> $1 AS similarity FROM t WHERE 1 = $2 AND 2 = $3 ORDER BY similarity ASC LIMIT 10",
        [JVal.str ("[1]"), JVal.str ("a"), JVal.str ("b")]⟩ ∧
      [JVal.str ("[1]"), JVal.str ("a"), JVal.str ("b")] ≠
        [JVal.str ("[1]"), JVal.str ("b"), JVal.str ("a")] := by
  refine ⟨rfl, ?_⟩
  intro h
  injection h with h1 h2
  injection h2 with h3 h4
  injection h3 with h5
  exact absurd h5 (by decide)

/-- C8, amended: params[0] is always the serialized query vector and the
remaining positions are the filter values in Object.entries order
(integer-like keys first in ascending numeric order, then the rest in
insertion order — which is insertion order whenever no key is
integer-like); position i of the clause list references parameter i + 2
with the escaped key; and with no filter and no raw expression the WHERE
text is empty, so the clause is omitted from the statement entirely. -/
theorem buildSimilarityQuery_params_spec :
    (∀ (o : QueryOpts) (st : Statement), buildSimilarityQuery o = .ok st →
      st.params = JVal.str (vectorLiteral o.vector) ::
        (jsEntries (o.filter.getD [])).map Prod.snd ∧
      ∃ t c : String, o.table = some t ∧ o.column = some c ∧
        st.sql = "SELECT " ++ escapeSelectClause (o.select.getD ("*")) ++ ", " ++
          formatIdent c ++ " " ++ metricOp (o.metric.getD ("cosine")) ++
          " $1 AS similarity FROM " ++ formatIdent t ++ " " ++
          whereText (jsEntries (o.filter.getD [])) o.whereSql ++
          " ORDER BY similarity ASC LIMIT " ++ (safeLimit o.limit).toStr) ∧
    (∀ (entries : List (String × JVal)) (i : Nat),
      (clauseStrings entries 2).get? i =
        (entries.get? i).map
          (fun kv => formatIdent kv.1 ++ " = $" ++ Nat.repr (i + 2))) ∧
    whereText [] none = "" ∧ whereText [] (some "") = "" := by
  refine ⟨?_, ?_, rfl, rfl⟩
  · intro o st h
    obtain ⟨t, c, h1, h2, h3, h4⟩ := buildSimilarityQuery_ok_spec o st h
    exact ⟨h3, t, c, h1, h2, h4⟩
  · intro entries i
    exact clauseStrings_get entries 2 i

/-- C8, witness for the amended theorem: one filter entry yields exactly
one extra parameter after the vector literal. -/
theorem buildSimilarityQuery_params_spec_witness :
    buildSimilarityQuery
        { table := some "embeddings", column := some "vector",
          vector := [.finite 1], filter := some [("category", .str ("tech"))] } =
      .ok ⟨"SELECT *, vector <=> $1 AS similarity FROM embeddings WHERE category = $2 ORDER BY similarity ASC LIMIT 10",
        [JVal.str ("[1]"), JVal.str ("tech")]⟩ ∧
      Statement.params
          ⟨"SELECT *, vector <=> $1 AS similarity FROM embeddings WHERE category = $2 ORDER BY similarity ASC LIMIT 10",
            [JVal.str ("[1]"), JVal.str ("tech")]⟩ =
        JVal.str (vectorLiteral [.finite 1]) ::
          (jsEntries [("category", JVal.str ("tech"))]).map Prod.snd :=
  ⟨rfl,
    (buildSimilarityQuery_params_spec.1
        { table := some "embeddings", column := some "vector",
          vector := [.finite 1], filter := some [("category", .str ("tech"))] }
        ⟨"SELECT *, vector <=> $1 AS similarity FROM embeddings WHERE category = $2 ORDER BY similarity ASC LIMIT 10",
          [JVal.str ("[1]"), JVal.str ("tech")]⟩ rfl).1⟩

end Pgvector
